import Mathlib

/-!
# Verification of the simses-lite battery state-update engine

Shallow embedding of the core of the repository:

* `src/simses/battery/state.py` / `src/simses/battery/battery.py` —
  `BatteryState`, the `Battery` electrical update (equilibrium current,
  hard current limits, linear voltage derating, state commit);
* `src/simses/degradation/cycle_detector.py` — `HalfCycle`,
  `HalfCycleDetector`;
* `src/simses/degradation/degradation.py` — `DegradationModel` composition;
* `src/simses/model/degradation/sony_lfp_cyclic.py` and
  `sony_lfp_calendar.py` — the Sony LFP accumulation laws.

Python floats are embedded as real numbers (`ℝ`); the half-cycle detector,
which only uses field arithmetic and comparisons, is embedded generically
over a `LinearOrderedField` so that it can be run computably over `ℚ`.
Exceptions that Python can raise (`math.sqrt` of a negative number,
division by zero) are modelled by an `Option`-valued variant of the
battery update (`Battery.updateE`); the total variant (`Battery.update`)
uses `Real.sqrt` and total division and agrees with the `Option`-valued
one whenever the latter succeeds.

`BatteryState` carries the fields `i_max_charge` / `i_max_discharge` that
`battery.py` reads and writes (`update`, `initialize_state`); the copy of
`state.py` shipped in the repository omits the two fields, which would make
every `Battery` constructor call fail — the embedding follows `battery.py`,
the test-suite and the documented data model.
-/

namespace Simses

/-- `BatteryState` from `src/simses/battery/state.py`, plus the
`i_max_charge` / `i_max_discharge` fields written by `Battery.update`. -/
structure BatteryState where
  v : ℝ
  i : ℝ
  T : ℝ
  power : ℝ
  power_setpoint : ℝ
  soc : ℝ
  ocv : ℝ
  hys : ℝ
  rint : ℝ
  soh_Q : ℝ
  soh_R : ℝ
  is_charge : Bool
  loss : ℝ
  i_max_charge : ℝ
  i_max_discharge : ℝ

/-- Electrical cell ratings, `ElectricalCellProperties` from
`src/simses/battery/properties.py` (thermal/format data is not needed by
any claim and is omitted). -/
structure ElectricalCellProperties where
  nominal_capacity : ℝ
  nominal_voltage : ℝ
  min_voltage : ℝ
  max_voltage : ℝ
  max_charge_rate : ℝ
  max_discharge_rate : ℝ
  coulomb_efficiency : ℝ := 1
  charge_derate_voltage_start : Option ℝ := none
  discharge_derate_voltage_start : Option ℝ := none

/-- A concrete cell model: the `CellType` interface of
`src/simses/battery/cell.py` (ratings plus the three state-dependent
electrical functions). -/
structure CellType where
  electrical : ElectricalCellProperties
  open_circuit_voltage : BatteryState → ℝ
  hystheresis_voltage : BatteryState → ℝ := fun _ => 0
  internal_resistance : BatteryState → ℝ

/-- The configuration part of `Battery` from `src/simses/battery/battery.py`:
a cell, a `(serial, parallel)` circuit and the SOC window. The serial and
parallel counts are embedded as reals (Python mixes the ints freely into
float arithmetic). -/
structure Battery where
  cell : CellType
  circuit : ℝ × ℝ
  soc_limits : ℝ × ℝ := (0, 1)

namespace Battery

/-- `Battery.open_circuit_voltage`: cell OCV scaled by the serial count. -/
noncomputable def open_circuit_voltage (b : Battery) (state : BatteryState) : ℝ :=
  b.cell.open_circuit_voltage state * b.circuit.1

/-- `Battery.hystheresis_voltage`: cell hysteresis scaled by the serial count. -/
noncomputable def hystheresis_voltage (b : Battery) (state : BatteryState) : ℝ :=
  b.cell.hystheresis_voltage state * b.circuit.1

/-- `Battery.internal_resistance`: cell resistance scaled by the circuit and
by `soh_R`. -/
noncomputable def internal_resistance (b : Battery) (state : BatteryState) : ℝ :=
  b.cell.internal_resistance state / b.circuit.2 * b.circuit.1 * state.soh_R

/-- `Battery.nominal_capacity` (Ah). -/
noncomputable def nominal_capacity (b : Battery) : ℝ :=
  b.cell.electrical.nominal_capacity * b.circuit.2

/-- `Battery.capacity`: nominal capacity scaled by `soh_Q` (Ah). -/
noncomputable def capacity (b : Battery) (state : BatteryState) : ℝ :=
  b.nominal_capacity * state.soh_Q

/-- `Battery.min_voltage` (V). -/
noncomputable def min_voltage (b : Battery) : ℝ :=
  b.cell.electrical.min_voltage * b.circuit.1

/-- `Battery.max_voltage` (V). -/
noncomputable def max_voltage (b : Battery) : ℝ :=
  b.cell.electrical.max_voltage * b.circuit.1

/-- `Battery.charge_derate_voltage_start` (V), `none` when disabled. -/
noncomputable def charge_derate_voltage_start (b : Battery) : Option ℝ :=
  b.cell.electrical.charge_derate_voltage_start.map (· * b.circuit.1)

/-- `Battery.discharge_derate_voltage_start` (V), `none` when disabled. -/
noncomputable def discharge_derate_voltage_start (b : Battery) : Option ℝ :=
  b.cell.electrical.discharge_derate_voltage_start.map (· * b.circuit.1)

/-- `Battery.max_charge_current` (A). -/
noncomputable def max_charge_current (b : Battery) : ℝ :=
  b.cell.electrical.nominal_capacity * b.cell.electrical.max_charge_rate * b.circuit.2

/-- `Battery.max_discharge_current` (A). -/
noncomputable def max_discharge_current (b : Battery) : ℝ :=
  b.cell.electrical.nominal_capacity * b.cell.electrical.max_discharge_rate * b.circuit.2

/-- `self.has_linear_derating`, computed in `Battery.__init__`. -/
def has_linear_derating (b : Battery) : Bool :=
  b.cell.electrical.charge_derate_voltage_start.isSome ||
    b.cell.electrical.discharge_derate_voltage_start.isSome

open Classical in
/-- The first statement of `Battery.update`
(`state.is_charge = power_setpoint > 0.0`): the stored state with its
`is_charge` flag overwritten from the sign of the setpoint.  All further
reads of `state` inside `update` see this mutated state. -/
noncomputable def preState (state : BatteryState) (power_setpoint : ℝ) : BatteryState :=
  { state with is_charge := if 0 < power_setpoint then true else false }

open Classical in
/-- `Battery.equilibrium_current`: the closed-form root of
`p = i * (ocv + hys + rint * i)`, with `p == 0` special-cased to `0`. -/
noncomputable def equilibrium_current (power_setpoint ocv hys rint : ℝ) : ℝ :=
  let v := ocv + hys
  if power_setpoint = 0 then 0
  else -(v - Real.sqrt (v ^ 2 + 4 * rint * power_setpoint)) / (2 * rint)

/-- `Battery.calculate_max_currents`: `(i_max_charge, i_max_discharge)` from
the C-rate, voltage and SOC limits. -/
noncomputable def calculate_max_currents (b : Battery) (state : BatteryState)
    (dt ocv hys rint Q : ℝ) : ℝ × ℝ :=
  (min b.max_charge_current
      (min ((b.max_voltage - ocv - hys) / rint)
        ((b.soc_limits.2 - state.soc) * Q / (dt / 3600))),
    max (-b.max_discharge_current)
      (max ((b.min_voltage - ocv - hys) / rint)
        ((b.soc_limits.1 - state.soc) * Q / (dt / 3600))))

open Classical in
/-- `Battery.linear_voltage_derating`: scale the current down linearly when
the terminal voltage at the operating point is inside the derating zone. -/
noncomputable def linear_voltage_derating (b : Battery) (i ocv hys rint : ℝ) : ℝ :=
  if i = 0 then i
  else
    let v := ocv + hys + rint * i
    if 0 < i then
      match b.charge_derate_voltage_start with
      | none => i
      | some derate_v =>
        if v ≤ derate_v then i
        else if b.max_voltage ≤ v then 0
        else i * ((b.max_voltage - v) / (b.max_voltage - derate_v))
    else
      match b.discharge_derate_voltage_start with
      | none => i
      | some derate_v =>
        if derate_v ≤ v then i
        else if v ≤ b.min_voltage then 0
        else i * ((v - b.min_voltage) / (derate_v - b.min_voltage))

/-! The imperative body of `Battery.update` is embedded in SSA style: each
intermediate value of the update (the OCV read, the equilibrium current,
the clamped current, the derated current, the derated limits) is a named
definition of the inputs, and `Battery.update` assembles the final state
from them.  Each definition recomputes its prefix, which is sound because
all of the computations are pure. -/

/-- The `ocv` local of `Battery.update` (read from the cell after the
`is_charge` assignment). -/
noncomputable def ocv_of (b : Battery) (state : BatteryState) (power_setpoint : ℝ) : ℝ :=
  b.open_circuit_voltage (preState state power_setpoint)

/-- The `hys` local of `Battery.update`. -/
noncomputable def hys_of (b : Battery) (state : BatteryState) (power_setpoint : ℝ) : ℝ :=
  b.hystheresis_voltage (preState state power_setpoint)

/-- The `rint` local of `Battery.update`. -/
noncomputable def rint_of (b : Battery) (state : BatteryState) (power_setpoint : ℝ) : ℝ :=
  b.internal_resistance (preState state power_setpoint)

/-- The `Q` local of `Battery.update`. -/
noncomputable def Q_of (b : Battery) (state : BatteryState) (power_setpoint : ℝ) : ℝ :=
  b.capacity (preState state power_setpoint)

/-- Step 1 of `Battery.update`: the equilibrium current at the setpoint. -/
noncomputable def i_eq (b : Battery) (state : BatteryState) (power_setpoint : ℝ) : ℝ :=
  equilibrium_current power_setpoint (ocv_of b state power_setpoint)
    (hys_of b state power_setpoint) (rint_of b state power_setpoint)

/-- Step 2 of `Battery.update`: the hard current limits. -/
noncomputable def imax_of (b : Battery) (state : BatteryState) (power_setpoint dt : ℝ) : ℝ × ℝ :=
  b.calculate_max_currents (preState state power_setpoint) dt
    (ocv_of b state power_setpoint) (hys_of b state power_setpoint)
    (rint_of b state power_setpoint) (Q_of b state power_setpoint)

open Classical in
/-- Step 3 of `Battery.update`: the equilibrium current curtailed to the
hard limits. -/
noncomputable def clamped_current (b : Battery) (state : BatteryState)
    (power_setpoint dt : ℝ) : ℝ :=
  let i := i_eq b state power_setpoint
  if 0 < i then min i (imax_of b state power_setpoint dt).1
  else if i < 0 then max i (imax_of b state power_setpoint dt).2
  else i

/-- The `i_derate` candidate of step 4 of `Battery.update`. -/
noncomputable def derate_candidate (b : Battery) (state : BatteryState)
    (power_setpoint dt : ℝ) : ℝ :=
  b.linear_voltage_derating (clamped_current b state power_setpoint dt)
    (ocv_of b state power_setpoint) (hys_of b state power_setpoint)
    (rint_of b state power_setpoint)

open Classical in
/-- The current after step 4 of `Battery.update` (derating applied only when
enabled and when it actually reduces the clamped current). -/
noncomputable def final_current (b : Battery) (state : BatteryState)
    (power_setpoint dt : ℝ) : ℝ :=
  let i := clamped_current b state power_setpoint dt
  let i_derate := derate_candidate b state power_setpoint dt
  if b.has_linear_derating ∧ 0 < i ∧ i_derate < i then i_derate
  else if b.has_linear_derating ∧ i < 0 ∧ i < i_derate then i_derate
  else i

open Classical in
/-- The `i_max_charge` value committed by `Battery.update` (reduced only when
charge derating actually bit). -/
noncomputable def final_imax_charge (b : Battery) (state : BatteryState)
    (power_setpoint dt : ℝ) : ℝ :=
  let i := clamped_current b state power_setpoint dt
  let i_derate := derate_candidate b state power_setpoint dt
  if b.has_linear_derating ∧ 0 < i ∧ i_derate < i then
    min (imax_of b state power_setpoint dt).1 i_derate
  else (imax_of b state power_setpoint dt).1

open Classical in
/-- The `i_max_discharge` value committed by `Battery.update`. -/
noncomputable def final_imax_discharge (b : Battery) (state : BatteryState)
    (power_setpoint dt : ℝ) : ℝ :=
  let i := clamped_current b state power_setpoint dt
  let i_derate := derate_candidate b state power_setpoint dt
  if b.has_linear_derating ∧ i < 0 ∧ i < i_derate then
    max (imax_of b state power_setpoint dt).2 i_derate
  else (imax_of b state power_setpoint dt).2

open Classical in
/-- `Battery.update` (without an attached degradation model): the new
`BatteryState` committed at the end of the call.  Field by field this is the
final block of `update` in `src/simses/battery/battery.py`. -/
noncomputable def update (b : Battery) (state : BatteryState)
    (power_setpoint dt : ℝ) : BatteryState :=
  let st := preState state power_setpoint
  let ocv := ocv_of b state power_setpoint
  let hys := hys_of b state power_setpoint
  let rint := rint_of b state power_setpoint
  let Q := Q_of b state power_setpoint
  let i := final_current b state power_setpoint dt
  let soc := max b.soc_limits.1 (min (st.soc + i * dt / Q / 3600) b.soc_limits.2)
  let is_charge := if i = 0 then st.is_charge else (if 0 < i then true else false)
  let v := ocv + hys + rint * i
  { v := v
    i := i
    T := st.T
    power := v * i
    power_setpoint := power_setpoint
    soc := soc
    ocv := ocv
    hys := hys
    rint := rint
    soh_Q := st.soh_Q
    soh_R := st.soh_R
    is_charge := is_charge
    loss := rint * i ^ 2
    i_max_charge := final_imax_charge b state power_setpoint dt
    i_max_discharge := final_imax_discharge b state power_setpoint dt }

end Battery

/-- `HalfCycle` from `src/simses/degradation/cycle_detector.py`, generic over
the number field (instantiated at `ℚ` for executable runs and at `ℝ` inside
the degradation composition). -/
structure HalfCycle (α : Type) where
  depth_of_discharge : α
  mean_soc : α
  c_rate : α
  full_equivalent_cycles : α
deriving DecidableEq

/-- The state of `HalfCycleDetector` (`__init__` fields). -/
structure HalfCycleDetector (α : Type) where
  start_soc : α
  prev_soc : α
  direction : Int
  elapsed_time : α
  soc_sum : α
  soc_samples : ℕ
  total_fec : α
  last_cycle : Option (HalfCycle α)
deriving DecidableEq

namespace HalfCycleDetector

variable {α : Type} [LinearOrderedField α]

/-- `HalfCycleDetector.__init__(initial_soc)`. -/
def mk' (initial_soc : α) : HalfCycleDetector α :=
  { start_soc := initial_soc
    prev_soc := initial_soc
    direction := 0
    elapsed_time := 0
    soc_sum := 0
    soc_samples := 0
    total_fec := 0
    last_cycle := none }

/-- `HalfCycleDetector._make_half_cycle`: build a `HalfCycle` record from the
accumulated data. -/
def make_half_cycle (d : HalfCycleDetector α) : HalfCycle α :=
  let dod := |d.prev_soc - d.start_soc|
  let mean_soc := if 0 < d.soc_samples then d.soc_sum / d.soc_samples else d.start_soc
  let elapsed_hours := d.elapsed_time / 3600
  let c_rate := if 0 < elapsed_hours then dod / elapsed_hours else 0
  { depth_of_discharge := dod
    mean_soc := mean_soc
    c_rate := c_rate
    full_equivalent_cycles := dod / 2 }

/-- `HalfCycleDetector.update(soc, dt)`: the new detector state together with
the returned flag (true exactly when a half-cycle was finalized). -/
def update (d : HalfCycleDetector α) (soc dt : α) : HalfCycleDetector α × Bool :=
  let delta := soc - d.prev_soc
  if delta = 0 then (d, false)
  else
    let new_direction : Int := if 0 < delta then 1 else -1
    if d.direction = 0 then
      ({ d with
          direction := new_direction
          elapsed_time := d.elapsed_time + dt
          soc_sum := d.soc_sum + (d.prev_soc + soc) / 2
          soc_samples := d.soc_samples + 1
          prev_soc := soc }, false)
    else if new_direction = d.direction then
      ({ d with
          elapsed_time := d.elapsed_time + dt
          soc_sum := d.soc_sum + (d.prev_soc + soc) / 2
          soc_samples := d.soc_samples + 1
          prev_soc := soc }, false)
    else
      let cycle := make_half_cycle d
      ({ start_soc := d.prev_soc
         prev_soc := soc
         direction := new_direction
         elapsed_time := dt
         soc_sum := (d.prev_soc + soc) / 2
         soc_samples := 1
         total_fec := d.total_fec + cycle.full_equivalent_cycles
         last_cycle := some cycle }, true)

/-- Feeding a whole `(soc, dt)` trace to the detector, sample by sample. -/
def run (d : HalfCycleDetector α) : List (α × α) → HalfCycleDetector α
  | [] => d
  | (soc, dt) :: rest => run (d.update soc dt).1 rest

/-- The `full_equivalent_cycles` values of the half-cycles finalized while
feeding a trace to the detector, in order. -/
def emittedFecs (d : HalfCycleDetector α) : List (α × α) → List α
  | [] => []
  | (soc, dt) :: rest =>
    (if (d.update soc dt).2 then [(make_half_cycle d).full_equivalent_cycles] else [])
      ++ emittedFecs (d.update soc dt).1 rest

end HalfCycleDetector

/-! ## Sony LFP degradation models -/

namespace SonyLFPCalendar

/-- Gas constant, `R` in `sony_lfp_calendar.py`. -/
noncomputable def Rgas : ℝ := 8.3144598

/-- Reference temperature `T_REF` (K). -/
noncomputable def T_REF : ℝ := 298.15

noncomputable def K_REF_QLOSS : ℝ := 1.2571e-5

noncomputable def EA_QLOSS : ℝ := 17126.0

noncomputable def C_QLOSS : ℝ := 2.8575

noncomputable def D_QLOSS : ℝ := 0.60225

noncomputable def K_REF_RINC : ℝ := 3.4194e-10

noncomputable def EA_RINC : ℝ := 71827.0

noncomputable def C_RINC : ℝ := -3.3903

noncomputable def D_RINC : ℝ := 1.5604

/-- The internal accumulator state of `SonyLFPCalendarDegradation`. -/
structure State where
  accumulated_qloss : ℝ
  accumulated_rinc : ℝ

/-- The capacity-loss stress factor `stress_q = k_T_q * k_soc_q` computed by
`SonyLFPCalendarDegradation.update` from the battery temperature and SOC. -/
noncomputable def stress_q (T soc : ℝ) : ℝ :=
  (K_REF_QLOSS * Real.exp (-EA_QLOSS / Rgas * (1 / T - 1 / T_REF))) *
    (C_QLOSS * (soc - 0.5) ^ 3 + D_QLOSS)

open Classical in
/-- `SonyLFPCalendarDegradation.update(state, dt)`: the returned
`(delta_soh_Q, delta_soh_R)` pair together with the mutated accumulator.
Only `state.T` and `state.soc` are read from the battery state, so the
embedding takes them directly. -/
noncomputable def update (s : State) (T soc dt : ℝ) : (ℝ × ℝ) × State :=
  if dt = 0 then ((0, 0), s)
  else
    let sq := stress_q T soc
    let delta_q :=
      if 0 < sq then
        sq * Real.sqrt ((s.accumulated_qloss / sq) ^ 2 + dt) - s.accumulated_qloss
      else 0
    let k_T_r := K_REF_RINC * Real.exp (-EA_RINC / Rgas * (1 / T - 1 / T_REF))
    let k_soc_r := C_RINC * (soc - 0.5) ^ 2 + D_RINC
    let delta_r := k_T_r * k_soc_r * dt
    ((-delta_q, delta_r),
      { accumulated_qloss := s.accumulated_qloss + delta_q
        accumulated_rinc := s.accumulated_rinc + delta_r })

/-- One accumulator step of the calendar model at fixed operating
conditions: the state after `update`. -/
noncomputable def step (T soc dt : ℝ) (s : State) : State :=
  (update s T soc dt).2

end SonyLFPCalendar

namespace SonyLFPCyclic

noncomputable def A_QLOSS : ℝ := 0.0630

noncomputable def B_QLOSS : ℝ := 0.0971

noncomputable def C_QLOSS : ℝ := 4.0253

noncomputable def D_QLOSS : ℝ := 1.0923

noncomputable def A_RINC : ℝ := -0.0020

noncomputable def B_RINC : ℝ := 0.0021

noncomputable def C_RINC : ℝ := 6.8477

noncomputable def D_RINC : ℝ := 0.9182

/-- The internal accumulator state of `SonyLFPCyclicDegradation`. -/
structure State where
  accumulated_qloss : ℝ
  accumulated_rinc : ℝ

/-- The capacity-loss stress factor `stress_q = k_crate_q * k_dod_q` of
`SonyLFPCyclicDegradation.update`. -/
noncomputable def stress_q (crate dod : ℝ) : ℝ :=
  (A_QLOSS * crate + B_QLOSS) * (C_QLOSS * (dod - 0.6) ^ 3 + D_QLOSS)

open Classical in
/-- `SonyLFPCyclicDegradation.update(state, half_cycle)`: the returned
`(delta_soh_Q, delta_soh_R)` pair together with the mutated accumulator. -/
noncomputable def update (s : State) (hc : HalfCycle ℝ) : (ℝ × ℝ) × State :=
  let dod := hc.depth_of_discharge
  let crate := hc.c_rate
  let delta_fec := hc.full_equivalent_cycles
  if delta_fec = 0 then ((0, 0), s)
  else
    let sq := stress_q crate dod
    let delta_q :=
      if 0 < sq then
        sq * Real.sqrt ((s.accumulated_qloss * 100 / sq) ^ 2 + delta_fec) / 100 -
          s.accumulated_qloss
      else 0
    let k_crate_r := A_RINC * crate + B_RINC
    let k_dod_r := C_RINC * (dod - 0.5) ^ 3 + D_RINC
    let delta_r := k_crate_r * k_dod_r * delta_fec / 100
    ((-delta_q, delta_r),
      { accumulated_qloss := s.accumulated_qloss + delta_q
        accumulated_rinc := s.accumulated_rinc + delta_r })

/-- One accumulator step of the cyclic model at a fixed half-cycle. -/
noncomputable def step (hc : HalfCycle ℝ) (s : State) : State :=
  (update s hc).2

end SonyLFPCyclic

/-! ## Degradation composition -/

/-- `DegradationModel` from `src/simses/degradation/degradation.py`: a
calendar strategy, a cyclic strategy (both pure functions returning
`(delta_soh_Q, delta_soh_R)`, per the `CalendarDegradation` /
`CyclicDegradation` interface contracts) and one half-cycle detector. -/
structure DegradationModel where
  calendar : BatteryState → ℝ → ℝ × ℝ
  cyclic : BatteryState → HalfCycle ℝ → ℝ × ℝ
  cycle_detector : HalfCycleDetector ℝ

namespace DegradationModel

/-- `DegradationModel.update(state, dt)`: calendar aging every step, then
cycle detection, then cyclic aging when a half-cycle completed.  Returns the
mutated battery state together with the mutated model (detector state). -/
noncomputable def update (m : DegradationModel) (state : BatteryState) (dt : ℝ) :
    BatteryState × DegradationModel :=
  let cal := m.calendar state dt
  let st1 := { state with soh_Q := state.soh_Q + cal.1, soh_R := state.soh_R + cal.2 }
  let det := m.cycle_detector.update st1.soc dt
  if det.2 then
    match det.1.last_cycle with
    | some half_cycle =>
      let cyc := m.cyclic st1 half_cycle
      ({ st1 with soh_Q := st1.soh_Q + cyc.1, soh_R := st1.soh_R + cyc.2 },
        { m with cycle_detector := det.1 })
    | none => (st1, { m with cycle_detector := det.1 })
  else (st1, { m with cycle_detector := det.1 })

end DegradationModel

/-! ## Exception-aware embedding of the battery update

Python raises `ValueError` on `math.sqrt` of a negative number and
`ZeroDivisionError` on float division by zero.  `sqrtE` / `divE` model the
two partial primitives; `Battery.updateE` is `Battery.update` with every
such primitive routed through `Option`, `none` meaning the call raised. -/

open Classical in
/-- `math.sqrt`: raises (returns `none`) on negative input. -/
noncomputable def sqrtE (x : ℝ) : Option ℝ :=
  if x < 0 then none else some (Real.sqrt x)

open Classical in
/-- Python float division: raises (returns `none`) when the divisor is 0. -/
noncomputable def divE (a b : ℝ) : Option ℝ :=
  if b = 0 then none else some (a / b)

namespace Battery

open Classical in
/-- `Battery.equilibrium_current` with the partial primitives explicit. -/
noncomputable def equilibrium_currentE (power_setpoint ocv hys rint : ℝ) : Option ℝ :=
  let v := ocv + hys
  if power_setpoint = 0 then some 0
  else
    (sqrtE (v ^ 2 + 4 * rint * power_setpoint)).bind fun s =>
      divE (-(v - s)) (2 * rint)

/-- `Battery.calculate_max_currents` with the partial primitives explicit. -/
noncomputable def calculate_max_currentsE (b : Battery) (state : BatteryState)
    (dt ocv hys rint Q : ℝ) : Option (ℝ × ℝ) :=
  (divE (b.max_voltage - ocv - hys) rint).bind fun vc =>
    (divE ((b.soc_limits.2 - state.soc) * Q) (dt / 3600)).bind fun sc =>
      (divE (b.min_voltage - ocv - hys) rint).bind fun vd =>
        (divE ((b.soc_limits.1 - state.soc) * Q) (dt / 3600)).bind fun sd =>
          some (min b.max_charge_current (min vc sc),
            max (-b.max_discharge_current) (max vd sd))

open Classical in
/-- `Battery.linear_voltage_derating` with the partial primitives explicit. -/
noncomputable def linear_voltage_deratingE (b : Battery) (i ocv hys rint : ℝ) : Option ℝ :=
  if i = 0 then some i
  else
    let v := ocv + hys + rint * i
    if 0 < i then
      match b.charge_derate_voltage_start with
      | none => some i
      | some derate_v =>
        if v ≤ derate_v then some i
        else if b.max_voltage ≤ v then some 0
        else (divE (b.max_voltage - v) (b.max_voltage - derate_v)).bind fun factor =>
          some (i * factor)
    else
      match b.discharge_derate_voltage_start with
      | none => some i
      | some derate_v =>
        if derate_v ≤ v then some i
        else if v ≤ b.min_voltage then some 0
        else (divE (v - b.min_voltage) (derate_v - b.min_voltage)).bind fun factor =>
          some (i * factor)

open Classical in
/-- `Battery.update` with every partial primitive explicit: `none` exactly
when the Python call raises. -/
noncomputable def updateE (b : Battery) (state : BatteryState)
    (power_setpoint dt : ℝ) : Option BatteryState :=
  let st := preState state power_setpoint
  let ocv := ocv_of b state power_setpoint
  let hys := hys_of b state power_setpoint
  let rint := rint_of b state power_setpoint
  let Q := Q_of b state power_setpoint
  (equilibrium_currentE power_setpoint ocv hys rint).bind fun i1 =>
    (calculate_max_currentsE b st dt ocv hys rint Q).bind fun imax =>
      let i2 := if 0 < i1 then min i1 imax.1 else if i1 < 0 then max i1 imax.2 else i1
      (if b.has_linear_derating then linear_voltage_deratingE b i2 ocv hys rint
        else some i2).bind fun i_derate =>
        let i3 :=
          if b.has_linear_derating ∧ 0 < i2 ∧ i_derate < i2 then i_derate
          else if b.has_linear_derating ∧ i2 < 0 ∧ i2 < i_derate then i_derate
          else i2
        let imc :=
          if b.has_linear_derating ∧ 0 < i2 ∧ i_derate < i2 then min imax.1 i_derate
          else imax.1
        let imd :=
          if b.has_linear_derating ∧ i2 < 0 ∧ i2 < i_derate then max imax.2 i_derate
          else imax.2
        (divE (i3 * dt) Q).bind fun dq =>
          let soc := max b.soc_limits.1 (min (st.soc + dq / 3600) b.soc_limits.2)
          let is_charge := if i3 = 0 then st.is_charge else (if 0 < i3 then true else false)
          let v := ocv + hys + rint * i3
          some
            { v := v
              i := i3
              T := st.T
              power := v * i3
              power_setpoint := power_setpoint
              soc := soc
              ocv := ocv
              hys := hys
              rint := rint
              soh_Q := st.soh_Q
              soh_R := st.soh_R
              is_charge := is_charge
              loss := rint * i3 ^ 2
              i_max_charge := imc
              i_max_discharge := imd }

end Battery

/-! ## A concrete test fixture

The `SimpleCell` of `src/tests/test_battery.py`: linear OCV between the
voltage bounds, constant 1 mΩ internal resistance, 100 Ah, 1C limits. -/

/-- The `SimpleCell` of the repository's test-suite. -/
noncomputable def simpleCell : CellType :=
  { electrical :=
      { nominal_capacity := 100
        nominal_voltage := 3.6
        min_voltage := 3
        max_voltage := 4.2
        max_charge_rate := 1
        max_discharge_rate := 1 }
    open_circuit_voltage := fun state => 3 + state.soc * (4.2 - 3)
    internal_resistance := fun _ => 0.001 }

/-- A single-cell battery over `simpleCell` with the full SOC window. -/
noncomputable def simpleBattery : Battery :=
  { cell := simpleCell, circuit := (1, 1), soc_limits := (0, 1) }

/-- `simpleCell` with charge derating starting at `vd` volts. -/
noncomputable def derateCell (vd : ℝ) : CellType :=
  { simpleCell with
      electrical := { simpleCell.electrical with charge_derate_voltage_start := some vd } }

/-- `b` with the cell-level derate-start configuration replaced: the
configuration knob that `test_battery.py` turns through
`ElectricalCellProperties(charge_derate_voltage_start=...)`. -/
noncomputable def Battery.withDerate (b : Battery) (cd dd : Option ℝ) : Battery :=
  { b with
      cell :=
        { b.cell with
            electrical :=
              { b.cell.electrical with
                  charge_derate_voltage_start := cd
                  discharge_derate_voltage_start := dd } } }

/-- The square-root accumulation law with virtual-state continuation shared
by `SonyLFPCalendarDegradation.update` and `SonyLFPCyclicDegradation.update`:
the new cumulative loss after advancing the driving variable by `dt` under
constant stress factor `s`, starting from cumulative loss `a`
(`new_total_qloss = stress_q * sqrt(virtual + dt)` with
`virtual = (a / stress_q)^2`). -/
noncomputable def sqrtLawNext (s a dt : ℝ) : ℝ :=
  s * Real.sqrt ((a / s) ^ 2 + dt)

/-- A mid-SOC battery state (SOC 0.5, 25 °C, fresh cell), as produced by
`Battery.initialize_state` with `start_soc = 0.5`. -/
noncomputable def midState : BatteryState :=
  { v := 3.6
    i := 0
    T := 298.15
    power := 0
    power_setpoint := 0
    soc := 0.5
    ocv := 3.6
    hys := 0
    rint := 0.001
    soh_Q := 1
    soh_R := 1
    is_charge := true
    loss := 0
    i_max_charge := 0
    i_max_discharge := 0 }

/-! ## Half-cycle detector properties -/

namespace HalfCycleDetector

variable {α : Type} [LinearOrderedField α]

/-- A finalized half-cycle always carries `fec = dod / 2`. -/
theorem make_half_cycle_fec (d : HalfCycleDetector α) :
    (make_half_cycle d).full_equivalent_cycles =
      (make_half_cycle d).depth_of_discharge / 2 := rfl

/-- One detector step adds the finalized cycle's FEC to `total_fec` when it
fires and leaves `total_fec` alone otherwise. -/
theorem update_total_fec (d : HalfCycleDetector α) (soc dt : α) :
    (d.update soc dt).1.total_fec =
      d.total_fec +
        (if (d.update soc dt).2 then (make_half_cycle d).full_equivalent_cycles else 0) := by
  by_cases h0 : soc - d.prev_soc = 0
  · simp [update, h0]
  · by_cases h1 : d.direction = 0
    · simp [update, h0, h1]
    · by_cases h2 : (if d.prev_soc < soc then (1 : Int) else -1) = d.direction
      · simp [update, h0, h1, h2]
      · simp [update, h0, h1, h2]

/-- FEC values are halves of absolute SOC swings, hence non-negative. -/
theorem make_half_cycle_fec_nonneg (d : HalfCycleDetector α) :
    0 ≤ (make_half_cycle d).full_equivalent_cycles := by
  have : (0 : α) ≤ |d.prev_soc - d.start_soc| := abs_nonneg _
  unfold make_half_cycle
  positivity

/-- Running a trace adds exactly the emitted FECs to `total_fec`. -/
theorem run_total_fec (l : List (α × α)) (d : HalfCycleDetector α) :
    (d.run l).total_fec = d.total_fec + (d.emittedFecs l).sum := by
  induction l generalizing d with
  | nil => simp [run, emittedFecs]
  | cons x rest ih =>
    obtain ⟨soc, dt⟩ := x
    rw [run, emittedFecs, ih, update_total_fec]
    split_ifs <;> simp [add_comm, add_assoc, add_left_comm]

/-- `total_fec` never decreases across a trace. -/
theorem run_total_fec_mono (l : List (α × α)) (d : HalfCycleDetector α) :
    d.total_fec ≤ (d.run l).total_fec := by
  rw [run_total_fec]
  have : (0 : α) ≤ (d.emittedFecs l).sum := by
    induction l generalizing d with
    | nil => simp [emittedFecs]
    | cons x rest ih =>
      obtain ⟨soc, dt⟩ := x
      rw [emittedFecs]
      have h1 := ih (d.update soc dt).1
      have h2 := make_half_cycle_fec_nonneg d
      split_ifs <;> simp <;> linarith
  linarith

end HalfCycleDetector

/-- C7: every `HalfCycle` record produced by the detector satisfies
`full_equivalent_cycles = depth_of_discharge / 2`; for a freshly
initialized detector, after any sequence of `update` calls `total_fec`
equals the sum of the FECs of all finalized half-cycles so far; and
`total_fec` never decreases across any sequence of `update` calls. -/
theorem claim_C7_fec_invariants :
    (∀ d : HalfCycleDetector ℚ,
        (HalfCycleDetector.make_half_cycle d).full_equivalent_cycles =
          (HalfCycleDetector.make_half_cycle d).depth_of_discharge / 2) ∧
      (∀ (s0 : ℚ) (l : List (ℚ × ℚ)),
        ((HalfCycleDetector.mk' s0).run l).total_fec =
          ((HalfCycleDetector.mk' s0).emittedFecs l).sum) ∧
      (∀ (d : HalfCycleDetector ℚ) (l : List (ℚ × ℚ)),
        d.total_fec ≤ (d.run l).total_fec) := by
  refine ⟨fun d => rfl, fun s0 l => ?_, fun d l => HalfCycleDetector.run_total_fec_mono l d⟩
  rw [HalfCycleDetector.run_total_fec]
  simp [HalfCycleDetector.mk']

/-- C9: a rest sample (`soc` equal to the previous sample, i.e.
`Δsoc = 0`) returns `False` and leaves the whole detector state — elapsed
time, SOC sum, sample count, direction, `total_fec` — unchanged. -/
theorem claim_C9_rest_sample_no_op (d : HalfCycleDetector ℚ) (dt : ℚ) :
    d.update d.prev_soc dt = (d, false) := by
  unfold HalfCycleDetector.update
  simp

/-- C10: `DegradationModel.update` changes only the `soh_Q` and `soh_R`
fields of the battery state; `soc`, `v`, `i`, `power`, `power_setpoint`,
`loss`, `ocv`, `hys`, `rint`, `is_charge`, `T` (and the stored current
limits) are all left untouched, for every calendar strategy, cyclic
strategy, detector state, battery state and timestep. -/
theorem claim_C10_degradation_frame (m : DegradationModel) (st : BatteryState) (dt : ℝ) :
    ((m.update st dt).1.soc = st.soc ∧
        (m.update st dt).1.v = st.v ∧
        (m.update st dt).1.i = st.i ∧
        (m.update st dt).1.power = st.power ∧
        (m.update st dt).1.power_setpoint = st.power_setpoint ∧
        (m.update st dt).1.loss = st.loss) ∧
      ((m.update st dt).1.ocv = st.ocv ∧
        (m.update st dt).1.hys = st.hys ∧
        (m.update st dt).1.rint = st.rint ∧
        (m.update st dt).1.is_charge = st.is_charge ∧
        (m.update st dt).1.T = st.T ∧
        (m.update st dt).1.i_max_charge = st.i_max_charge ∧
        (m.update st dt).1.i_max_discharge = st.i_max_discharge) := by
  unfold DegradationModel.update
  dsimp only
  split
  · split <;> simp
  · simp

/-! ## Equilibrium-current solver (C4) and SOC window (C3) -/

/-- C4: whenever the solver is defined (positive `rint`, non-negative
discriminant — which holds throughout the unconstrained operating range)
the returned current satisfies `power_setpoint = i * (ocv + hys + rint*i)`
exactly, and with a non-negative equilibrium voltage the chosen root tends
to `0` as the power setpoint tends to `0`. -/
theorem claim_C4_equilibrium_root (p ocv hys rint : ℝ) (hr : 0 < rint)
    (hv : 0 ≤ ocv + hys) (hd : 0 ≤ (ocv + hys) ^ 2 + 4 * rint * p) :
    Battery.equilibrium_current p ocv hys rint *
        (ocv + hys + rint * Battery.equilibrium_current p ocv hys rint) = p ∧
      Filter.Tendsto (fun q => Battery.equilibrium_current q ocv hys rint)
        (nhds 0) (nhds 0) := by
  constructor
  · by_cases hp : p = 0
    · subst hp
      simp [Battery.equilibrium_current]
    · have hs : Real.sqrt ((ocv + hys) ^ 2 + 4 * rint * p) ^ 2
          = (ocv + hys) ^ 2 + 4 * rint * p := Real.sq_sqrt hd
      have hval : Battery.equilibrium_current p ocv hys rint
          = -((ocv + hys) - Real.sqrt ((ocv + hys) ^ 2 + 4 * rint * p)) / (2 * rint) := by
        simp [Battery.equilibrium_current, hp]
      rw [hval]
      have hr0 : rint ≠ 0 := ne_of_gt hr
      field_simp
      nlinarith [hs]
  · have hfun : (fun q => Battery.equilibrium_current q ocv hys rint)
        = fun q => -((ocv + hys) - Real.sqrt ((ocv + hys) ^ 2 + 4 * rint * q)) / (2 * rint) := by
      funext q
      by_cases hq : q = 0
      · subst hq
        simp [Battery.equilibrium_current, Real.sqrt_sq hv]
      · simp [Battery.equilibrium_current, hq]
    rw [hfun]
    have hcont : Continuous
        (fun q : ℝ => -((ocv + hys) - Real.sqrt ((ocv + hys) ^ 2 + 4 * rint * q)) / (2 * rint)) := by
      apply Continuous.div_const
      exact (continuous_const.sub
        ((continuous_const.add (continuous_const.mul continuous_id)).sqrt)).neg
    have ht := hcont.tendsto 0
    simp only [mul_zero, add_zero, Real.sqrt_sq hv, sub_self, neg_zero, zero_div] at ht
    exact ht

/-- C3: after `Battery.update` the committed SOC lies inside the configured
SOC window, for every power setpoint and every positive timestep (the
window bounds being in order). -/
theorem claim_C3_soc_window (b : Battery) (st : BatteryState) (p dt : ℝ)
    (hwin : b.soc_limits.1 ≤ b.soc_limits.2) (_hdt : 0 < dt) :
    b.soc_limits.1 ≤ (Battery.update b st p dt).soc ∧
      (Battery.update b st p dt).soc ≤ b.soc_limits.2 := by
  constructor
  · exact le_max_left _ _
  · exact max_le hwin (min_le_right _ _)

/-- C3 witness: the hypotheses hold for the test battery at a concrete
setpoint and timestep. -/
theorem claim_C3_soc_window_witness :
    simpleBattery.soc_limits.1 ≤ simpleBattery.soc_limits.2 ∧ (0 : ℝ) < 60 ∧
      (simpleBattery.soc_limits.1 ≤ (Battery.update simpleBattery midState 100 60).soc ∧
        (Battery.update simpleBattery midState 100 60).soc ≤ simpleBattery.soc_limits.2) :=
  ⟨by norm_num [simpleBattery], by norm_num,
    claim_C3_soc_window simpleBattery midState 100 60 (by norm_num [simpleBattery]) (by norm_num)⟩

/-- C4 witness: at `ocv = 3`, `hys = 0`, `rint = 1`, `p = 4` the hypotheses
hold and the solver root satisfies the power equation and the limit. -/
theorem claim_C4_equilibrium_root_witness :
    ((0 : ℝ) < 1 ∧ (0 : ℝ) ≤ 3 + 0 ∧ (0 : ℝ) ≤ (3 + 0) ^ 2 + 4 * 1 * 4) ∧
      (Battery.equilibrium_current 4 3 0 1 *
          (3 + 0 + 1 * Battery.equilibrium_current 4 3 0 1) = 4 ∧
        Filter.Tendsto (fun q => Battery.equilibrium_current q 3 0 1) (nhds 0) (nhds 0)) :=
  ⟨⟨by norm_num, by norm_num, by norm_num⟩,
    claim_C4_equilibrium_root 4 3 0 1 (by norm_num) (by norm_num) (by norm_num)⟩

/-! ## The rest edge-case (C2) -/

/-- The equilibrium current of a zero setpoint is zero. -/
theorem i_eq_zero_setpoint (b : Battery) (st : BatteryState) :
    Battery.i_eq b st 0 = 0 := by
  simp [Battery.i_eq, Battery.equilibrium_current]

/-- The clamped current of a zero setpoint is zero. -/
theorem clamped_current_zero_setpoint (b : Battery) (st : BatteryState) (dt : ℝ) :
    Battery.clamped_current b st 0 dt = 0 := by
  unfold Battery.clamped_current
  rw [i_eq_zero_setpoint]
  simp

/-- C2 evaluation: calling `Battery.update` with `power_setpoint = 0` on a
state whose `is_charge` flag is `true` produces `i = 0` and an unchanged
SOC, but flips `is_charge` to `false`: the assignment
`state.is_charge = power_setpoint > 0.0` at the top of `update` overwrites
the flag before the «maintain previous state if in rest» read at the
bottom, so the previous direction is lost at rest, contradicting the
claim (and the code's own comment). -/
theorem claim_C2_rest_flips_is_charge :
    midState.is_charge = true ∧
      (Battery.update simpleBattery midState 0 60).i = 0 ∧
      (Battery.update simpleBattery midState 0 60).soc = midState.soc ∧
      (Battery.update simpleBattery midState 0 60).is_charge = false := by
  have hD : simpleBattery.has_linear_derating = false := rfl
  have hfin : Battery.final_current simpleBattery midState 0 60 = 0 := by
    unfold Battery.final_current
    rw [clamped_current_zero_setpoint]
    simp [hD]
  refine ⟨rfl, ?_, ?_, ?_⟩
  · show Battery.final_current simpleBattery midState 0 60 = 0
    exact hfin
  · show max simpleBattery.soc_limits.1
        (min ((Battery.preState midState 0).soc +
          Battery.final_current simpleBattery midState 0 60 * 60 /
            Battery.Q_of simpleBattery midState 0 / 3600) simpleBattery.soc_limits.2)
        = midState.soc
    rw [hfin]
    norm_num [Battery.preState, simpleBattery, midState]
  · show (if Battery.final_current simpleBattery midState 0 60 = 0
        then (Battery.preState midState 0).is_charge
        else if 0 < Battery.final_current simpleBattery midState 0 60 then true else false)
        = false
    rw [hfin]
    norm_num [Battery.preState]

/-! ## Exception freedom of the update (C1) -/

/-- `math.sqrt` succeeds on non-negative input. -/
theorem sqrtE_eq_some {x : ℝ} (h : 0 ≤ x) : sqrtE x = some (Real.sqrt x) := by
  unfold sqrtE
  rw [if_neg (not_lt.mpr h)]

/-- Float division succeeds when the divisor is nonzero. -/
theorem divE_eq_some (a : ℝ) {b : ℝ} (h : b ≠ 0) : divE a b = some (a / b) := by
  unfold divE
  rw [if_neg h]

/-- With a nonzero `rint` and a non-negative discriminant the
exception-aware equilibrium solve succeeds and agrees with the total one. -/
theorem equilibrium_currentE_eq_some (p ocv hys rint : ℝ) (hr : rint ≠ 0)
    (hd : 0 ≤ (ocv + hys) ^ 2 + 4 * rint * p) :
    Battery.equilibrium_currentE p ocv hys rint =
      some (Battery.equilibrium_current p ocv hys rint) := by
  unfold Battery.equilibrium_currentE Battery.equilibrium_current
  by_cases hp : p = 0
  · simp [hp]
  · have h2 : (2 : ℝ) * rint ≠ 0 := mul_ne_zero two_ne_zero hr
    simp [hp, sqrtE_eq_some hd, divE_eq_some _ h2]

/-- With a nonzero `rint` and nonzero `dt` the exception-aware hard-limit
computation succeeds and agrees with the total one. -/
theorem calculate_max_currentsE_eq_some (b : Battery) (st : BatteryState)
    (dt ocv hys rint Q : ℝ) (hr : rint ≠ 0) (hdt : dt ≠ 0) :
    Battery.calculate_max_currentsE b st dt ocv hys rint Q =
      some (Battery.calculate_max_currents b st dt ocv hys rint Q) := by
  have hdt36 : dt / 3600 ≠ 0 := div_ne_zero hdt (by norm_num)
  unfold Battery.calculate_max_currentsE Battery.calculate_max_currents
  simp [divE_eq_some _ hr, divE_eq_some _ hdt36]

/-- Linear voltage derating never raises: the division by
`max_voltage - derate_v` (resp. `derate_v - min_voltage`) is guarded by the
two comparisons placing the terminal voltage strictly inside the derating
zone, so the divisor is nonzero whenever it is reached. -/
theorem linear_voltage_deratingE_eq_some (b : Battery) (i ocv hys rint : ℝ) :
    Battery.linear_voltage_deratingE b i ocv hys rint =
      some (Battery.linear_voltage_derating b i ocv hys rint) := by
  unfold Battery.linear_voltage_deratingE Battery.linear_voltage_derating
  by_cases h0 : i = 0
  · simp [h0]
  · rw [if_neg h0, if_neg h0]
    by_cases hpos : 0 < i
    · rw [if_pos hpos, if_pos hpos]
      cases hcd : b.charge_derate_voltage_start with
      | none => rfl
      | some derate_v =>
        by_cases h1 : ocv + hys + rint * i ≤ derate_v
        · simp [h1]
        · by_cases h2 : b.max_voltage ≤ ocv + hys + rint * i
          · simp [h1, h2]
          · push_neg at h1 h2
            have hne : b.max_voltage - derate_v ≠ 0 := by
              have : derate_v < b.max_voltage := h1.trans h2
              linarith
            simp [not_le.mpr h1, not_le.mpr h2, divE_eq_some _ hne]
    · rw [if_neg hpos, if_neg hpos]
      cases hdd : b.discharge_derate_voltage_start with
      | none => rfl
      | some derate_v =>
        by_cases h1 : derate_v ≤ ocv + hys + rint * i
        · simp [h1]
        · by_cases h2 : ocv + hys + rint * i ≤ b.min_voltage
          · simp [h1, h2]
          · push_neg at h1 h2
            have hne : derate_v - b.min_voltage ≠ 0 := by
              have : b.min_voltage < derate_v := h2.trans h1
              linarith
            simp [not_le.mpr h1, not_le.mpr h2, divE_eq_some _ hne]

/-- C1 (amended): `Battery.update` completes without raising whenever, in
addition to `rint > 0` and `dt > 0`, the solver discriminant
`(ocv+hys)^2 + 4*rint*power_setpoint` is non-negative and the SOH-scaled
capacity is nonzero.  (The counterexample below shows the extra
discriminant condition is necessary: `math.sqrt` raises on sufficiently
negative finite setpoints.) -/
theorem claim_C1_update_no_raise (b : Battery) (st : BatteryState) (p dt : ℝ)
    (hr : 0 < Battery.rint_of b st p) (hdt : 0 < dt)
    (hQ : Battery.Q_of b st p ≠ 0)
    (hd : 0 ≤ (Battery.ocv_of b st p + Battery.hys_of b st p) ^ 2 +
      4 * Battery.rint_of b st p * p) :
    (Battery.updateE b st p dt).isSome := by
  have hr' : Battery.rint_of b st p ≠ 0 := ne_of_gt hr
  have hdt' : dt ≠ 0 := ne_of_gt hdt
  simp only [Battery.updateE]
  rw [equilibrium_currentE_eq_some _ _ _ _ hr' hd, Option.some_bind,
    calculate_max_currentsE_eq_some _ _ _ _ _ _ _ hr' hdt', Option.some_bind]
  by_cases hD : b.has_linear_derating
  · rw [if_pos hD, linear_voltage_deratingE_eq_some, Option.some_bind,
      divE_eq_some _ hQ, Option.some_bind]
    rfl
  · rw [if_neg hD, Option.some_bind, divE_eq_some _ hQ, Option.some_bind]
    rfl

/-- C1 counterexample: on the test-suite battery at mid SOC, the finite
setpoint `-1e6 W` with `dt = 60 s` and `rint = 1 mΩ > 0` makes the solver
discriminant negative, so `math.sqrt` raises `ValueError` inside
`Battery.update` — the update does not complete. -/
theorem claim_C1_counterexample :
    Battery.updateE simpleBattery midState (-1000000) 60 = none := by
  have hocv : Battery.ocv_of simpleBattery midState (-1000000) = 3.6 := by
    unfold Battery.ocv_of Battery.open_circuit_voltage Battery.preState
    norm_num [simpleBattery, simpleCell, midState]
  have hhys : Battery.hys_of simpleBattery midState (-1000000) = 0 := by
    unfold Battery.hys_of Battery.hystheresis_voltage Battery.preState
    norm_num [simpleBattery, simpleCell, midState]
  have hrint : Battery.rint_of simpleBattery midState (-1000000) = 0.001 := by
    unfold Battery.rint_of Battery.internal_resistance Battery.preState
    norm_num [simpleBattery, simpleCell, midState]
  have hneg : (Battery.ocv_of simpleBattery midState (-1000000) +
      Battery.hys_of simpleBattery midState (-1000000)) ^ 2 +
      4 * Battery.rint_of simpleBattery midState (-1000000) * (-1000000) < 0 := by
    rw [hocv, hhys, hrint]
    norm_num
  have hE : Battery.equilibrium_currentE (-1000000)
      (Battery.ocv_of simpleBattery midState (-1000000))
      (Battery.hys_of simpleBattery midState (-1000000))
      (Battery.rint_of simpleBattery midState (-1000000)) = none := by
    unfold Battery.equilibrium_currentE sqrtE
    rw [if_neg (by norm_num : ¬((-1000000 : ℝ) = 0))]
    simp only [if_pos hneg, Option.none_bind]
  simp only [Battery.updateE]
  rw [hE, Option.none_bind]

/-- C1 witness: the amended hypotheses hold on the test battery for the
finite setpoint `100 W`, `dt = 60 s`, and the update completes. -/
theorem claim_C1_update_no_raise_witness :
    ((0 : ℝ) < Battery.rint_of simpleBattery midState 100 ∧ (0 : ℝ) < 60 ∧
      Battery.Q_of simpleBattery midState 100 ≠ 0 ∧
      (0 : ℝ) ≤ (Battery.ocv_of simpleBattery midState 100 +
        Battery.hys_of simpleBattery midState 100) ^ 2 +
        4 * Battery.rint_of simpleBattery midState 100 * 100) ∧
      (Battery.updateE simpleBattery midState 100 60).isSome := by
  have hr : (0 : ℝ) < Battery.rint_of simpleBattery midState 100 := by
    unfold Battery.rint_of Battery.internal_resistance Battery.preState
    norm_num [simpleBattery, simpleCell, midState]
  have hQ : Battery.Q_of simpleBattery midState 100 ≠ 0 := by
    unfold Battery.Q_of Battery.capacity Battery.nominal_capacity Battery.preState
    norm_num [simpleBattery, simpleCell, midState]
  have hd : (0 : ℝ) ≤ (Battery.ocv_of simpleBattery midState 100 +
      Battery.hys_of simpleBattery midState 100) ^ 2 +
      4 * Battery.rint_of simpleBattery midState 100 * 100 := by
    positivity
  exact ⟨⟨hr, by norm_num, hQ, hd⟩,
    claim_C1_update_no_raise simpleBattery midState 100 60 hr (by norm_num) hQ hd⟩

/-! ## Sign of the cyclic degradation deltas (C5) -/

/-- C5 (amended): for every accumulator state and every half-cycle record
with `c_rate ∈ [0, 1.05]`, `depth_of_discharge ∈ [0, 1]` and non-negative
`full_equivalent_cycles` (every detector-produced record has
`fec = dod/2 ≥ 0`), `SonyLFPCyclicDegradation.update` returns
`Δsoh_Q ≤ 0` and `Δsoh_R ≥ 0`.  The bound `c_rate ≤ 1.05 = B_RINC/|A_RINC|`
is necessary: the counterexample below shows `Δsoh_R < 0` at `c_rate = 2`.
`Δsoh_Q ≤ 0` needs no c-rate bound. -/
theorem claim_C5_cyclic_delta_signs (s : SonyLFPCyclic.State) (hc : HalfCycle ℝ)
    (_hcr0 : 0 ≤ hc.c_rate) (hcr1 : hc.c_rate ≤ 1.05)
    (hdod0 : 0 ≤ hc.depth_of_discharge) (_hdod1 : hc.depth_of_discharge ≤ 1)
    (hfec : 0 ≤ hc.full_equivalent_cycles) :
    (SonyLFPCyclic.update s hc).1.1 ≤ 0 ∧ 0 ≤ (SonyLFPCyclic.update s hc).1.2 := by
  by_cases hf : hc.full_equivalent_cycles = 0
  · simp [SonyLFPCyclic.update, hf]
  · simp only [SonyLFPCyclic.update, if_neg hf]
    constructor
    · -- Δsoh_Q = -delta_q ≤ 0, i.e. 0 ≤ delta_q
      rw [neg_nonpos]
      split_ifs with hsq
      · set sq := SonyLFPCyclic.stress_q hc.c_rate hc.depth_of_discharge with hsqdef
        set a := s.accumulated_qloss with hadef
        have h1 : |a * 100 / sq| ≤
            Real.sqrt ((a * 100 / sq) ^ 2 + hc.full_equivalent_cycles) := by
          rw [← Real.sqrt_sq_eq_abs]
          exact Real.sqrt_le_sqrt (by linarith)
        have h2 : sq * |a * 100 / sq| ≤
            sq * Real.sqrt ((a * 100 / sq) ^ 2 + hc.full_equivalent_cycles) :=
          mul_le_mul_of_nonneg_left h1 (le_of_lt hsq)
        have h3 : sq * |a * 100 / sq| = |a| * 100 := by
          rw [abs_div, abs_of_pos hsq, abs_mul]
          field_simp
        have h4 : a ≤ |a| := le_abs_self a
        nlinarith [h2, h3, h4]
      · exact le_refl 0
    · -- Δsoh_R = delta_r ≥ 0
      have h1 : 0 ≤ SonyLFPCyclic.A_RINC * hc.c_rate + SonyLFPCyclic.B_RINC := by
        unfold SonyLFPCyclic.A_RINC SonyLFPCyclic.B_RINC
        linarith
      have h2 : 0 ≤ SonyLFPCyclic.C_RINC * (hc.depth_of_discharge - 0.5) ^ 3 +
          SonyLFPCyclic.D_RINC := by
        unfold SonyLFPCyclic.C_RINC SonyLFPCyclic.D_RINC
        nlinarith [mul_nonneg hdod0 (sq_nonneg (hc.depth_of_discharge - 0.75))]
      positivity

/-- C5 counterexample: at `c_rate = 2` (non-negative) and
`depth_of_discharge = 0.5`, the resistance stress factor
`A_RINC * c_rate + B_RINC = -0.0019` is negative, so
`SonyLFPCyclicDegradation.update` returns `Δsoh_R < 0`: `soh_R` decreases,
refuting the claimed `Δsoh_R ≥ 0` for every non-negative c-rate. -/
theorem claim_C5_counterexample :
    (SonyLFPCyclic.update ⟨0, 0⟩
      { depth_of_discharge := 0.5, mean_soc := 0.5, c_rate := 2,
        full_equivalent_cycles := 0.25 }).1.2 < 0 := by
  have h : ((0.25 : ℝ)) ≠ 0 := by norm_num
  simp only [SonyLFPCyclic.update, if_neg h]
  norm_num [SonyLFPCyclic.A_RINC, SonyLFPCyclic.B_RINC,
    SonyLFPCyclic.C_RINC, SonyLFPCyclic.D_RINC]

/-- C5 witness: the amended hypotheses hold at `c_rate = 1`,
`dod = 0.5`, `fec = 0.25` with a fresh accumulator, and both sign bounds
follow. -/
theorem claim_C5_cyclic_delta_signs_witness :
    ((0 : ℝ) ≤ 1 ∧ (1 : ℝ) ≤ 1.05 ∧ (0 : ℝ) ≤ 0.5 ∧ (0.5 : ℝ) ≤ 1 ∧ (0 : ℝ) ≤ 0.25) ∧
      ((SonyLFPCyclic.update ⟨0, 0⟩
          { depth_of_discharge := 0.5, mean_soc := 0.5, c_rate := 1,
            full_equivalent_cycles := 0.25 }).1.1 ≤ 0 ∧
        0 ≤ (SonyLFPCyclic.update ⟨0, 0⟩
          { depth_of_discharge := 0.5, mean_soc := 0.5, c_rate := 1,
            full_equivalent_cycles := 0.25 }).1.2) :=
  ⟨⟨by norm_num, by norm_num, by norm_num, by norm_num, by norm_num⟩,
    claim_C5_cyclic_delta_signs ⟨0, 0⟩
      { depth_of_discharge := 0.5, mean_soc := 0.5, c_rate := 1,
        full_equivalent_cycles := 0.25 }
      (by norm_num) (by norm_num) (by norm_num) (by norm_num) (by norm_num)⟩

/-! ## Sub-step consistency of the sqrt accumulation law (C6) -/

/-- Dividing the sqrt-law total by the stress factor and squaring recovers
the advanced virtual driving variable. -/
theorem sqrtLawNext_div_sq (s a dt : ℝ) (hs : 0 < s) (hdt : 0 ≤ dt) :
    (sqrtLawNext s a dt / s) ^ 2 = (a / s) ^ 2 + dt := by
  unfold sqrtLawNext
  rw [mul_div_cancel_left₀ _ (ne_of_gt hs),
    Real.sq_sqrt (add_nonneg (sq_nonneg _) hdt)]

/-- Two consecutive sqrt-law steps under the same stress factor compose into
one step of the summed increment — the exact-arithmetic core of the
virtual-continuation law. -/
theorem sqrtLawNext_comp (s a dt₁ dt₂ : ℝ) (hs : 0 < s) (h1 : 0 ≤ dt₁) :
    sqrtLawNext s (sqrtLawNext s a dt₁) dt₂ = sqrtLawNext s a (dt₁ + dt₂) := by
  conv_lhs => rw [sqrtLawNext]
  rw [sqrtLawNext_div_sq s a dt₁ hs h1, add_assoc]
  rfl

/-- `n` sqrt-law steps of increment `dt` equal one step of `n * dt`. -/
theorem sqrtLawNext_iterate (s dt : ℝ) (hs : 0 < s) (hdt : 0 ≤ dt) (n : ℕ)
    (hn : 1 ≤ n) (a : ℝ) :
    (fun x => sqrtLawNext s x dt)^[n] a = sqrtLawNext s a (n * dt) := by
  induction n with
  | zero => omega
  | succ m ih =>
    rcases Nat.eq_or_lt_of_le hn with h1 | h1
    · rw [← h1]
      simp [Function.iterate_one]
    · have hm : 1 ≤ m := by omega
      rw [Function.iterate_succ_apply', ih hm,
        sqrtLawNext_comp s a (m * dt) dt hs (by positivity)]
      push_cast
      ring_nf

/-- With `dt ≠ 0` and a positive stress factor, one calendar update advances
the accumulated capacity loss by exactly the sqrt law. -/
theorem calendar_step_qloss (T soc dt : ℝ) (hdt : dt ≠ 0)
    (hs : 0 < SonyLFPCalendar.stress_q T soc) (st : SonyLFPCalendar.State) :
    (SonyLFPCalendar.step T soc dt st).accumulated_qloss =
      sqrtLawNext (SonyLFPCalendar.stress_q T soc) st.accumulated_qloss dt := by
  unfold SonyLFPCalendar.step SonyLFPCalendar.update sqrtLawNext
  simp only [SonyLFPCalendar.stress_q] at hs ⊢
  rw [if_neg hdt]
  simp only [if_pos hs]
  ring

/-- With a nonzero FEC increment and a positive stress factor, one cyclic
update advances the accumulated capacity loss by exactly the sqrt law with
stress factor `stress_q / 100`. -/
theorem cyclic_step_qloss (hc : HalfCycle ℝ) (hf : hc.full_equivalent_cycles ≠ 0)
    (hs : 0 < SonyLFPCyclic.stress_q hc.c_rate hc.depth_of_discharge)
    (st : SonyLFPCyclic.State) :
    (SonyLFPCyclic.step hc st).accumulated_qloss =
      sqrtLawNext (SonyLFPCyclic.stress_q hc.c_rate hc.depth_of_discharge / 100)
        st.accumulated_qloss hc.full_equivalent_cycles := by
  unfold SonyLFPCyclic.step SonyLFPCyclic.update sqrtLawNext
  rw [if_neg hf]
  simp only [if_pos hs]
  rw [div_div_eq_mul_div]
  ring

/-- Iterating the calendar step tracks the scalar sqrt-law iteration on the
accumulated capacity loss. -/
theorem calendar_iter_qloss (T soc dt : ℝ) (hdt : dt ≠ 0)
    (hs : 0 < SonyLFPCalendar.stress_q T soc) (n : ℕ) (st : SonyLFPCalendar.State) :
    ((SonyLFPCalendar.step T soc dt)^[n] st).accumulated_qloss =
      (fun a => sqrtLawNext (SonyLFPCalendar.stress_q T soc) a dt)^[n]
        st.accumulated_qloss := by
  induction n with
  | zero => rfl
  | succ m ih =>
    rw [Function.iterate_succ_apply', Function.iterate_succ_apply',
      calendar_step_qloss T soc dt hdt hs, ih]

/-- Iterating the cyclic step tracks the scalar sqrt-law iteration on the
accumulated capacity loss. -/
theorem cyclic_iter_qloss (hc : HalfCycle ℝ) (hf : hc.full_equivalent_cycles ≠ 0)
    (hs : 0 < SonyLFPCyclic.stress_q hc.c_rate hc.depth_of_discharge)
    (n : ℕ) (st : SonyLFPCyclic.State) :
    ((SonyLFPCyclic.step hc)^[n] st).accumulated_qloss =
      (fun a => sqrtLawNext (SonyLFPCyclic.stress_q hc.c_rate hc.depth_of_discharge / 100)
        a hc.full_equivalent_cycles)^[n] st.accumulated_qloss := by
  induction n with
  | zero => rfl
  | succ m ih =>
    rw [Function.iterate_succ_apply', Function.iterate_succ_apply',
      cyclic_step_qloss hc hf hs, ih]

/-- C6: under constant stress factors (positive, as in the back-solve
branch), running `N ≥ 1` equal sub-steps whose driving-variable increments
sum to `Δ > 0` accumulates exactly the same cumulative capacity loss as one
single step of increment `Δ` — for the calendar law (driving variable:
time) and for the cyclic law (driving variable: full-equivalent cycles). -/
theorem claim_C6_substep_consistency (T soc dod msoc crate Δ : ℝ)
    (hcal : 0 < SonyLFPCalendar.stress_q T soc)
    (hcyc : 0 < SonyLFPCyclic.stress_q crate dod)
    (hΔ : 0 < Δ) (N : ℕ) (hN : 1 ≤ N)
    (st : SonyLFPCalendar.State) (sc : SonyLFPCyclic.State) :
    ((SonyLFPCalendar.step T soc (Δ / N))^[N] st).accumulated_qloss =
        (SonyLFPCalendar.step T soc Δ st).accumulated_qloss ∧
      ((SonyLFPCyclic.step
            { depth_of_discharge := dod, mean_soc := msoc, c_rate := crate,
              full_equivalent_cycles := Δ / N })^[N] sc).accumulated_qloss =
        (SonyLFPCyclic.step
            { depth_of_discharge := dod, mean_soc := msoc, c_rate := crate,
              full_equivalent_cycles := Δ } sc).accumulated_qloss := by
  have hNpos : (0 : ℝ) < N := by
    exact_mod_cast Nat.lt_of_lt_of_le Nat.zero_lt_one hN
  have hsub : (0 : ℝ) < Δ / N := div_pos hΔ hNpos
  have hsub' : Δ / (N : ℝ) ≠ 0 := ne_of_gt hsub
  have htot : (N : ℝ) * (Δ / N) = Δ := by
    field_simp
  constructor
  · rw [calendar_iter_qloss T soc (Δ / N) hsub' hcal N st,
      sqrtLawNext_iterate _ _ hcal (le_of_lt hsub) N hN, htot,
      calendar_step_qloss T soc Δ (ne_of_gt hΔ) hcal st]
  · rw [cyclic_iter_qloss _ hsub' hcyc N sc,
      sqrtLawNext_iterate _ _ (by positivity) (le_of_lt hsub) N hN, htot,
      cyclic_step_qloss _ (ne_of_gt hΔ) hcyc sc]

/-- C6 witness: at reference temperature and mid SOC the calendar stress is
positive, at `c_rate = 1`, `dod = 0.5` the cyclic stress is positive, and
two half-sized sub-steps of a 3600-unit increment equal the single step. -/
theorem claim_C6_substep_consistency_witness :
    ((0 : ℝ) < SonyLFPCalendar.stress_q 298.15 0.5 ∧
      (0 : ℝ) < SonyLFPCyclic.stress_q 1 0.5 ∧ (0 : ℝ) < 3600 ∧ 1 ≤ 2) ∧
      (((SonyLFPCalendar.step 298.15 0.5 ((3600 : ℝ) / (2 : ℕ)))^[2]
            ⟨0, 0⟩).accumulated_qloss =
          (SonyLFPCalendar.step 298.15 0.5 3600 ⟨0, 0⟩).accumulated_qloss ∧
        ((SonyLFPCyclic.step
              { depth_of_discharge := 0.5, mean_soc := 0.5, c_rate := 1,
                full_equivalent_cycles := (3600 : ℝ) / (2 : ℕ) })^[2]
            ⟨0, 0⟩).accumulated_qloss =
          (SonyLFPCyclic.step
              { depth_of_discharge := 0.5, mean_soc := 0.5, c_rate := 1,
                full_equivalent_cycles := 3600 } ⟨0, 0⟩).accumulated_qloss) := by
  have hcal : (0 : ℝ) < SonyLFPCalendar.stress_q 298.15 0.5 := by
    unfold SonyLFPCalendar.stress_q SonyLFPCalendar.K_REF_QLOSS
      SonyLFPCalendar.EA_QLOSS SonyLFPCalendar.Rgas SonyLFPCalendar.T_REF
      SonyLFPCalendar.C_QLOSS SonyLFPCalendar.D_QLOSS
    norm_num
  have hcyc : (0 : ℝ) < SonyLFPCyclic.stress_q 1 0.5 := by
    unfold SonyLFPCyclic.stress_q SonyLFPCyclic.A_QLOSS SonyLFPCyclic.B_QLOSS
      SonyLFPCyclic.C_QLOSS SonyLFPCyclic.D_QLOSS
    norm_num
  exact ⟨⟨hcal, hcyc, by norm_num, by norm_num⟩,
    claim_C6_substep_consistency 298.15 0.5 0.5 0.5 1 3600 hcal hcyc
      (by norm_num) 2 (by norm_num) ⟨0, 0⟩ ⟨0, 0⟩⟩

/-! ## Charge derating comparison (C8)

Replacing only the derate-start configuration leaves every quantity
computed before step 4 of `update` unchanged; the following transport
equations hold definitionally. -/

theorem ocv_of_withDerate (b : Battery) (cd dd : Option ℝ) (st : BatteryState) (p : ℝ) :
    Battery.ocv_of (b.withDerate cd dd) st p = Battery.ocv_of b st p := rfl

theorem hys_of_withDerate (b : Battery) (cd dd : Option ℝ) (st : BatteryState) (p : ℝ) :
    Battery.hys_of (b.withDerate cd dd) st p = Battery.hys_of b st p := rfl

theorem rint_of_withDerate (b : Battery) (cd dd : Option ℝ) (st : BatteryState) (p : ℝ) :
    Battery.rint_of (b.withDerate cd dd) st p = Battery.rint_of b st p := rfl

theorem Q_of_withDerate (b : Battery) (cd dd : Option ℝ) (st : BatteryState) (p : ℝ) :
    Battery.Q_of (b.withDerate cd dd) st p = Battery.Q_of b st p := rfl

theorem imax_of_withDerate (b : Battery) (cd dd : Option ℝ) (st : BatteryState) (p dt : ℝ) :
    Battery.imax_of (b.withDerate cd dd) st p dt = Battery.imax_of b st p dt := rfl

theorem clamped_withDerate (b : Battery) (cd dd : Option ℝ) (st : BatteryState) (p dt : ℝ) :
    Battery.clamped_current (b.withDerate cd dd) st p dt =
      Battery.clamped_current b st p dt := rfl

theorem soc_limits_withDerate (b : Battery) (cd dd : Option ℝ) :
    (b.withDerate cd dd).soc_limits = b.soc_limits := rfl

/-- The committed current of `update` is the step-4 current. -/
theorem update_i (b : Battery) (st : BatteryState) (p dt : ℝ) :
    (Battery.update b st p dt).i = Battery.final_current b st p dt := rfl

/-- With derating disabled the step-4 current is just the clamped current. -/
theorem final_current_noDerate (b : Battery) (st : BatteryState) (p dt : ℝ) :
    Battery.final_current (b.withDerate none none) st p dt =
      Battery.clamped_current b st p dt := by
  have hD0 : (b.withDerate none none).has_linear_derating = false := rfl
  unfold Battery.final_current
  simp [hD0, clamped_withDerate]

/-- With derating disabled the committed charge limit is the hard limit. -/
theorem final_imax_charge_noDerate (b : Battery) (st : BatteryState) (p dt : ℝ) :
    Battery.final_imax_charge (b.withDerate none none) st p dt =
      (Battery.imax_of b st p dt).1 := by
  have hD0 : (b.withDerate none none).has_linear_derating = false := rfl
  unfold Battery.final_imax_charge
  simp [hD0, imax_of_withDerate]

/-- With derating disabled the committed discharge limit is the hard limit. -/
theorem final_imax_discharge_noDerate (b : Battery) (st : BatteryState) (p dt : ℝ) :
    Battery.final_imax_discharge (b.withDerate none none) st p dt =
      (Battery.imax_of b st p dt).2 := by
  have hD0 : (b.withDerate none none).has_linear_derating = false := rfl
  unfold Battery.final_imax_discharge
  simp [hD0, imax_of_withDerate]

/-- With only charge derating configured, a discharging clamped current is
returned unchanged by `linear_voltage_derating`. -/
theorem derate_candidate_of_neg (b : Battery) (vd : ℝ) (st : BatteryState) (p dt : ℝ)
    (hneg : Battery.clamped_current b st p dt < 0) :
    Battery.derate_candidate (b.withDerate (some vd) none) st p dt =
      Battery.clamped_current b st p dt := by
  have hdd : (b.withDerate (some vd) none).discharge_derate_voltage_start = none := rfl
  unfold Battery.derate_candidate Battery.linear_voltage_derating
  simp only [clamped_withDerate, ocv_of_withDerate, hys_of_withDerate,
    rint_of_withDerate, hdd, if_neg (ne_of_lt hneg), if_neg (not_lt.mpr (le_of_lt hneg))]

/-- With only charge derating configured, whenever the terminal voltage at
the clamped current is at or below the battery-level derate-start threshold
`vd * serial`, `linear_voltage_derating` returns the clamped current
unchanged. -/
theorem derate_candidate_of_le (b : Battery) (vd : ℝ) (st : BatteryState) (p dt : ℝ)
    (hv : Battery.ocv_of b st p + Battery.hys_of b st p +
      Battery.rint_of b st p * Battery.clamped_current b st p dt ≤ vd * b.circuit.1) :
    Battery.derate_candidate (b.withDerate (some vd) none) st p dt =
      Battery.clamped_current b st p dt := by
  have hcd : (b.withDerate (some vd) none).charge_derate_voltage_start =
      some (vd * b.circuit.1) := rfl
  have hdd : (b.withDerate (some vd) none).discharge_derate_voltage_start = none := rfl
  unfold Battery.derate_candidate Battery.linear_voltage_derating
  simp only [clamped_withDerate, ocv_of_withDerate, hys_of_withDerate,
    rint_of_withDerate, hcd, hdd]
  by_cases h0 : Battery.clamped_current b st p dt = 0
  · rw [if_pos h0]
  · rw [if_neg h0]
    by_cases hp : 0 < Battery.clamped_current b st p dt
    · rw [if_pos hp]
      exact if_pos hv
    · rw [if_neg hp]

/-- C8: for the same setpoint and state, with a configured charge-derate
threshold (and no discharge derating) the committed current after
`Battery.update` is at most the current obtained with derating disabled;
and whenever the terminal voltage at the clamped current is at or below the
battery-level derate-start threshold, the derated update commits exactly
the same state as the non-derated one. -/
theorem claim_C8_derating_comparison (b : Battery) (vd : ℝ) (st : BatteryState) (p dt : ℝ) :
    (Battery.update (b.withDerate (some vd) none) st p dt).i ≤
        (Battery.update (b.withDerate none none) st p dt).i ∧
      (Battery.ocv_of b st p + Battery.hys_of b st p +
          Battery.rint_of b st p * Battery.clamped_current b st p dt ≤ vd * b.circuit.1 →
        Battery.update (b.withDerate (some vd) none) st p dt =
          Battery.update (b.withDerate none none) st p dt) := by
  have hD1 : (b.withDerate (some vd) none).has_linear_derating = true := rfl
  constructor
  · rw [update_i, update_i, final_current_noDerate]
    unfold Battery.final_current
    simp only [clamped_withDerate, hD1, true_and]
    split_ifs with h1 h2
    · exact le_of_lt h1.2
    · exact absurd h2.2 (by rw [derate_candidate_of_neg b vd st p dt h2.1]; exact lt_irrefl _)
    · exact le_refl _
  · intro hv
    have hdc := derate_candidate_of_le b vd st p dt hv
    have h1 : Battery.final_current (b.withDerate (some vd) none) st p dt =
        Battery.clamped_current b st p dt := by
      unfold Battery.final_current
      simp [clamped_withDerate, hdc]
    have h3 : Battery.final_imax_charge (b.withDerate (some vd) none) st p dt =
        (Battery.imax_of b st p dt).1 := by
      unfold Battery.final_imax_charge
      simp [clamped_withDerate, imax_of_withDerate, hdc]
    have h4 : Battery.final_imax_discharge (b.withDerate (some vd) none) st p dt =
        (Battery.imax_of b st p dt).2 := by
      unfold Battery.final_imax_discharge
      simp [clamped_withDerate, imax_of_withDerate, hdc]
    unfold Battery.update
    simp only [ocv_of_withDerate, hys_of_withDerate, rint_of_withDerate, Q_of_withDerate,
      soc_limits_withDerate, h1, h3, h4, final_current_noDerate,
      final_imax_charge_noDerate, final_imax_discharge_noDerate]

/-- C8 witness: on the test battery at mid SOC with a 4 V derate threshold
and a zero setpoint, the voltage hypothesis holds and the derated and
non-derated updates agree (so in particular the current comparison holds
with equality). -/
theorem claim_C8_derating_comparison_witness :
    (Battery.ocv_of simpleBattery midState 0 + Battery.hys_of simpleBattery midState 0 +
        Battery.rint_of simpleBattery midState 0 *
          Battery.clamped_current simpleBattery midState 0 60 ≤ 4 * simpleBattery.circuit.1) ∧
      ((Battery.update (simpleBattery.withDerate (some 4) none) midState 0 60).i ≤
          (Battery.update (simpleBattery.withDerate none none) midState 0 60).i ∧
        Battery.update (simpleBattery.withDerate (some 4) none) midState 0 60 =
          Battery.update (simpleBattery.withDerate none none) midState 0 60) := by
  have hv : Battery.ocv_of simpleBattery midState 0 + Battery.hys_of simpleBattery midState 0 +
      Battery.rint_of simpleBattery midState 0 *
        Battery.clamped_current simpleBattery midState 0 60 ≤ 4 * simpleBattery.circuit.1 := by
    rw [clamped_current_zero_setpoint]
    unfold Battery.ocv_of Battery.hys_of Battery.rint_of Battery.open_circuit_voltage
      Battery.hystheresis_voltage Battery.internal_resistance Battery.preState
    norm_num [simpleBattery, simpleCell, midState]
  exact ⟨hv, (claim_C8_derating_comparison simpleBattery 4 midState 0 60).1,
    (claim_C8_derating_comparison simpleBattery 4 midState 0 60).2 hv⟩

end Simses
